import Mathlib

/-!
Verification of the PageIndex web-service control plane (webapi package).

This file gives a shallow embedding, in Lean, of the state-transforming core
of the two supervisors in the repository (webapi/job_manager.py,
webapi/chat_manager.py), of the stage classifier (webapi/progress.py), of the
persistent store (webapi/store.py) and of the pure retrieval helpers
(webapi/chat_retrieval.py), together with theorems settling the frozen claims
about them.

Modelling conventions:
- Python datetimes are opaque strings produced by the caller; every place the
  source calls a now function takes the string as an explicit argument.
- Python float progress anchors are modelled as exact rationals, with the
  literals written exactly as in the source.
- Event publication (broker queues) and disk writes are side effects outside
  the per-entity state; the embedding models the entity-state transformation
  each operation performs, which is what the claims quantify over.
-/

namespace PageIndex

/-- Python str.startswith, modelled on the character list of the string so
that concrete instances evaluate inside the kernel. -/
def str_startswith (s p : String) : Bool := p.data.isPrefixOf s.data

/-- Python str.strip with no argument: remove leading and trailing
whitespace. -/
def pyStrip (s : String) : String :=
  String.mk (((s.data.dropWhile Char.isWhitespace).reverse.dropWhile
      Char.isWhitespace).reverse)

/-- A Python slice s[:n] on a string: the first n characters. -/
def pyTruncate (n : Nat) (s : String) : String := String.mk (s.data.take n)

/-- Status lifecycle of a job, from webapi/models.py JobStatus. -/
inductive JobStatus where
  | QUEUED
  | RUNNING
  | COMPLETED
  | FAILED
  | CANCELLED
deriving DecidableEq, Repr

/-- Stage lifecycle of a job, from webapi/models.py JobStage. -/
inductive JobStage where
  | QUEUED
  | PARSING_INPUT
  | TOC_ANALYSIS
  | INDEX_BUILD
  | REFINEMENT
  | SUMMARIZATION
  | FINALIZING
  | COMPLETED
deriving DecidableEq, Repr

/-- The string value of a stage, as the Python str-valued Enum members. -/
def JobStage.value : JobStage → String
  | .QUEUED => "QUEUED"
  | .PARSING_INPUT => "PARSING_INPUT"
  | .TOC_ANALYSIS => "TOC_ANALYSIS"
  | .INDEX_BUILD => "INDEX_BUILD"
  | .REFINEMENT => "REFINEMENT"
  | .SUMMARIZATION => "SUMMARIZATION"
  | .FINALIZING => "FINALIZING"
  | .COMPLETED => "COMPLETED"

/-- The fixed progress anchor of each stage, from webapi/progress.py
STAGE_PROGRESS.  Python floats are modelled as the exact rationals the
source literals denote. -/
def STAGE_PROGRESS : JobStage → ℚ
  | .QUEUED => 0.05
  | .PARSING_INPUT => 0.20
  | .TOC_ANALYSIS => 0.35
  | .INDEX_BUILD => 0.60
  | .REFINEMENT => 0.75
  | .SUMMARIZATION => 0.88
  | .FINALIZING => 0.95
  | .COMPLETED => 1.00

/-- Position of a stage in STAGE_ORDER, from webapi/progress.py stage_rank
(STAGE_ORDER.index). -/
def stage_rank : JobStage → Nat
  | .QUEUED => 0
  | .PARSING_INPUT => 1
  | .TOC_ANALYSIS => 2
  | .INDEX_BUILD => 3
  | .REFINEMENT => 4
  | .SUMMARIZATION => 5
  | .FINALIZING => 6
  | .COMPLETED => 7

/-- Source of an activity item, from webapi/models.py ActivityItem.source. -/
inductive ActivitySource where
  | stdout
  | stderr
  | log
  | system
deriving DecidableEq, Repr

/-- One activity entry, from webapi/models.py ActivityItem. -/
structure ActivityItem where
  timestamp : String
  source : ActivitySource
  message : String
deriving DecidableEq, Repr

/-- Input kind of a job, the Literal type used in webapi/models.py. -/
inductive InputType where
  | pdf
  | md
deriving DecidableEq, Repr

/-- A persisted job record, from webapi/models.py PersistedJob (which
inherits every field of JobDetail and JobSummary).  The options bag only
carries string scalar overrides in the embedded fragment. -/
structure Job where
  id : String
  filename : String
  input_type : InputType
  status : JobStatus
  stage : JobStage
  progress : ℚ
  created_at : String
  updated_at : String
  options : List (String × String)
  input_path : String
  log_file : Option String
  result_file : Option String
  error : Option String
  stdout_tail : List String
  activity : List ActivityItem
  pid : Option Int
deriving DecidableEq, Repr

/-- JobManager._append_stdout_tail: append a tagged line and keep the last
300 entries. -/
def append_stdout_tail (job : Job) (source : String) (message : String) : Job :=
  let tail := job.stdout_tail ++ [s!"[{source}] {message}"]
  let tail := if tail.length > 300 then tail.drop (tail.length - 300) else tail
  { job with stdout_tail := tail }

/-- JobManager._append_activity: append an ActivityItem and keep the last
400 entries (the publish call touches only subscriber queues). -/
def append_activity (job : Job) (source : ActivitySource) (message : String)
    (now : String) : Job :=
  let items := job.activity ++ [ActivityItem.mk now source message]
  let items := if items.length > 400 then items.drop (items.length - 400) else items
  { job with activity := items }

/-- JobManager._advance_stage: transition only when the candidate stage
ranks strictly above the current stage; on transition set the stage, set
progress to the stage anchor, refresh updated_at and append a system
activity line.  Persisting and emitting do not change the job record. -/
def advance_stage (job : Job) (new_stage : Option JobStage) (now : String)
    (reason : String) : Job :=
  match new_stage with
  | none => job
  | some s =>
    if stage_rank s ≤ stage_rank job.stage then job
    else
      let job := { job with stage := s, progress := STAGE_PROGRESS s, updated_at := now }
      append_activity job .system (s!"Stage -> {s.value}: {reason}") now

/-- Folding advance_stage over a whole sequence of classified signals,
each with its timestamp and reason. -/
def advance_many (job : Job) (signals : List (Option JobStage × String × String)) : Job :=
  signals.foldl (fun j sig => advance_stage j sig.1 sig.2.1 sig.2.2) job

/-- JobManager restart reconciliation, from the loop at the end of
JobManager.__init__: a loaded job with status RUNNING is forced to FAILED
with the fixed error message; any other job is left untouched. -/
def reconcile_job (job : Job) (now : String) : Job :=
  if job.status = JobStatus.RUNNING then
    { job with
        status := JobStatus.FAILED,
        error := some "Backend restarted while job was running",
        updated_at := now }
  else job

/-- A small concrete job in its freshly created state, used to instantiate
witnesses and counterexamples. -/
def exampleJob : Job where
  id := "a1b2c3d4e5f6"
  filename := "doc.pdf"
  input_type := .pdf
  status := .QUEUED
  stage := .QUEUED
  progress := STAGE_PROGRESS .QUEUED
  created_at := "2026-01-01T00:00:00+00:00"
  updated_at := "2026-01-01T00:00:00+00:00"
  options := []
  input_path := "/repo/.pageindex-web/uploads/a1b2c3d4e5f6_doc.pdf"
  log_file := none
  result_file := none
  error := none
  stdout_tail := []
  activity := []
  pid := none

/-- The example job as the disk state after a crash mid-run. -/
def exampleRunningJob : Job :=
  { exampleJob with status := .RUNNING, stage := .PARSING_INPUT,
                    progress := STAGE_PROGRESS .PARSING_INPUT }

theorem advance_stage_stage_mono (job : Job) (c : Option JobStage)
    (now reason : String) :
    stage_rank job.stage ≤ stage_rank (advance_stage job c now reason).stage := by
  cases c with
  | none => exact Nat.le_refl _
  | some s =>
    simp only [advance_stage]
    by_cases h : stage_rank s ≤ stage_rank job.stage
    · simp [h]
    · simp only [h, if_false, append_activity]
      exact Nat.le_of_lt (Nat.lt_of_not_le h)

theorem advance_many_stage_mono (job : Job)
    (signals : List (Option JobStage × String × String)) :
    stage_rank job.stage ≤ stage_rank (advance_many job signals).stage := by
  induction signals generalizing job with
  | nil => exact Nat.le_refl _
  | cons sig rest ih =>
    exact Nat.le_trans (advance_stage_stage_mono job sig.1 sig.2.1 sig.2.2)
      (ih (advance_stage job sig.1 sig.2.1 sig.2.2))

/-- C1: the stage-advance operation changes the job only when the candidate
stage ranks strictly above the current stage; on an advance it sets the
stage to the candidate, sets progress exactly to that stage anchor from
STAGE_PROGRESS and refreshes updated_at; a candidate at or below the
current rank, or an absent candidate, leaves the job unchanged; hence the
stage rank never decreases over any sequence of advances. -/
theorem advance_stage_monotonic_spec :
    (∀ (job : Job) (c : Option JobStage) (now reason : String),
        (∀ s, c = some s → stage_rank s ≤ stage_rank job.stage) →
        advance_stage job c now reason = job)
  ∧ (∀ (job : Job) (s : JobStage) (now reason : String),
        stage_rank job.stage < stage_rank s →
        (advance_stage job (some s) now reason).stage = s ∧
        (advance_stage job (some s) now reason).progress = STAGE_PROGRESS s ∧
        (advance_stage job (some s) now reason).updated_at = now)
  ∧ (∀ (job : Job) (signals : List (Option JobStage × String × String)),
        stage_rank job.stage ≤ stage_rank (advance_many job signals).stage) := by
  refine ⟨?_, ?_, advance_many_stage_mono⟩
  · intro job c now reason h
    cases c with
    | none => rfl
    | some s => simp [advance_stage, h s rfl]
  · intro job s now reason h
    simp [advance_stage, Nat.not_le.mpr h, append_activity]

/-- C1 witness: on the fresh example job a PARSING_INPUT signal advances
stage, anchor and timestamp, a QUEUED signal changes nothing, and a signal
sequence never lowers the stage rank. -/
theorem advance_stage_monotonic_spec_witness :
    ((advance_stage exampleJob (some .PARSING_INPUT) "t1" "signal from stdout").stage
        = .PARSING_INPUT ∧
     (advance_stage exampleJob (some .PARSING_INPUT) "t1" "signal from stdout").progress
        = STAGE_PROGRESS .PARSING_INPUT ∧
     (advance_stage exampleJob (some .PARSING_INPUT) "t1" "signal from stdout").updated_at
        = "t1") ∧
    advance_stage exampleJob (some .QUEUED) "t1" "signal from stdout" = exampleJob ∧
    stage_rank exampleJob.stage ≤
      stage_rank (advance_many exampleJob [(some .TOC_ANALYSIS, "t2", "signal from log")]).stage :=
  ⟨advance_stage_monotonic_spec.2.1 exampleJob .PARSING_INPUT "t1" "signal from stdout"
      (by decide),
   advance_stage_monotonic_spec.1 exampleJob (some .QUEUED) "t1" "signal from stdout"
      (by intro s hs; cases hs; decide),
   advance_stage_monotonic_spec.2.2 exampleJob _⟩

/-- C2 counterexample: restart reconciliation leaves a persisted QUEUED job
as QUEUED, so after construction a loaded job can still have a status in
the set containing RUNNING and QUEUED. -/
theorem reconcile_job_queued_counterexample :
    ¬ ((reconcile_job exampleJob "t0").status ≠ JobStatus.RUNNING ∧
       (reconcile_job exampleJob "t0").status ≠ JobStatus.QUEUED) := by
  intro h
  exact h.2 (by decide)

/-- C2 amended: after restart reconciliation no loaded job has status
RUNNING; every job loaded with status RUNNING is forced to FAILED with
error "Backend restarted while job was running" and a refreshed
updated_at; every other job (QUEUED included) is left unchanged. -/
theorem reconcile_job_spec (job : Job) (now : String) :
    (reconcile_job job now).status ≠ JobStatus.RUNNING ∧
    (job.status = JobStatus.RUNNING →
      (reconcile_job job now).status = JobStatus.FAILED ∧
      (reconcile_job job now).error = some "Backend restarted while job was running" ∧
      (reconcile_job job now).updated_at = now) ∧
    (job.status ≠ JobStatus.RUNNING → reconcile_job job now = job) := by
  by_cases h : job.status = JobStatus.RUNNING
  · refine ⟨?_, fun _ => ?_, fun hn => absurd h hn⟩ <;> simp [reconcile_job, h]
  · exact ⟨by simp [reconcile_job, h], fun hr => absurd hr h, fun _ => by simp [reconcile_job, h]⟩

/-- C2 witness: the reconciled crashed example job is FAILED with the fixed
message, and the reconciled queued example job is untouched. -/
theorem reconcile_job_spec_witness :
    ((reconcile_job exampleRunningJob "t1").status = JobStatus.FAILED ∧
     (reconcile_job exampleRunningJob "t1").error =
        some "Backend restarted while job was running" ∧
     (reconcile_job exampleRunningJob "t1").updated_at = "t1") ∧
    reconcile_job exampleJob "t1" = exampleJob :=
  ⟨(reconcile_job_spec exampleRunningJob "t1").2.1 rfl,
   (reconcile_job_spec exampleJob "t1").2.2 (by decide)⟩

/-- JobManager._finalize: set the terminal status, refresh updated_at,
record the error when one is given and non-empty (Python truthiness of the
optional string), and on COMPLETED force stage COMPLETED with its anchor.
The publish calls touch only subscriber queues. -/
def finalizeJob (job : Job) (status : JobStatus) (error : Option String)
    (now : String) : Job :=
  let job := { job with status := status, updated_at := now }
  let job :=
    match error with
    | some e => if e ≠ "" then { job with error := some e } else job
    | none => job
  if status = JobStatus.COMPLETED then
    { job with stage := JobStage.COMPLETED,
               progress := STAGE_PROGRESS JobStage.COMPLETED }
  else job

/-- The expected-result assignment at the top of JobManager._run_job
finalisation: when the file results slash stem_structure.json exists, point
result_file at it. -/
def apply_expected (job : Job) (expectedPath : String) (expectedExists : Bool) : Job :=
  if expectedExists then { job with result_file := some expectedPath } else job

/-- The success guard of JobManager._run_job finalisation: job.result_file
is truthy and the file exists on disk. -/
def result_ready (job : Job) (onDisk : String → Bool) : Bool :=
  match job.result_file with
  | some p => p ≠ "" && onDisk p
  | none => false

/-- The error fallback chain of the failure branch of JobManager._run_job:
last stdout_tail line starting with "[stderr]", else the exit-code message
when the code is non-zero, else the missing-result message. -/
def fallback_error (job : Job) (return_code : Int) : String :=
  match (job.stdout_tail.filter (fun l => str_startswith l "[stderr]")).getLast? with
  | some l => l
  | none =>
    if return_code ≠ 0 then s!"Process exited with code {return_code}"
    else "Process completed but no result file was found"

/-- The whole error computation of the failure branch of
JobManager._run_job: a truthy pre-set job.error wins, else the fallback
chain. -/
def failure_error (job : Job) (return_code : Int) : String :=
  match job.error with
  | some e => if e ≠ "" then e else fallback_error job return_code
  | none => fallback_error job return_code

/-- The finalisation tail of JobManager._run_job, after the subprocess has
been reaped: skip when the job was cancelled mid-run, record the expected
result file when present, then branch on success (exit code zero and a
result file on disk) or failure with the error fallback chain. -/
def finalize_after_exit (job : Job) (return_code : Int) (expectedPath : String)
    (expectedExists : Bool) (onDisk : String → Bool) (now : String) : Job :=
  if job.status = JobStatus.CANCELLED then job
  else
    let job := apply_expected job expectedPath expectedExists
    if return_code = 0 ∧ result_ready job onDisk = true then
      let job := advance_stage job (some .FINALIZING) now "subprocess exited successfully"
      finalizeJob job JobStatus.COMPLETED none now
    else
      finalizeJob job JobStatus.FAILED (some (failure_error job return_code)) now

theorem startsWith_stderr_ne_empty (l : String)
    (h : str_startswith l "[stderr]" = true) : l ≠ "" := by
  intro he
  subst he
  exact absurd h (by decide)

theorem string_append_ne_empty_left (s t : String) (hs : s ≠ "") : s ++ t ≠ "" := by
  intro h
  apply hs
  have hlen := congrArg String.length h
  rw [String.length_append] at hlen
  have hs0 : s.length = 0 := Nat.eq_zero_of_add_eq_zero_right hlen
  cases s with
  | mk data =>
    cases data with
    | nil => rfl
    | cons c cs => exact absurd hs0 (by simp [String.length])

theorem fallback_error_ne_empty (job : Job) (rc : Int) :
    fallback_error job rc ≠ "" := by
  unfold fallback_error
  cases hl : (job.stdout_tail.filter (fun l => str_startswith l "[stderr]")).getLast? with
  | none =>
    by_cases hrc : rc ≠ 0 <;> simp [hrc]
    exact string_append_ne_empty_left _ _ (string_append_ne_empty_left _ _ (by decide))
  | some l =>
    have hmem : l ∈ job.stdout_tail.filter (fun s => str_startswith s "[stderr]") := by
      obtain ⟨h, heq⟩ := List.mem_getLast?_eq_getLast (Option.mem_def.mpr hl)
      exact heq ▸ List.getLast_mem h
    exact startsWith_stderr_ne_empty l (List.mem_filter.mp hmem).2

theorem failure_error_ne_empty (job : Job) (rc : Int) :
    failure_error job rc ≠ "" := by
  unfold failure_error
  cases he : job.error with
  | none => exact fallback_error_ne_empty job rc
  | some e =>
    by_cases hne : e ≠ ""
    · show (if e ≠ "" then e else fallback_error job rc) ≠ ""
      rw [if_pos hne]
      exact hne
    · simpa [hne] using fallback_error_ne_empty job rc

theorem finalizeJob_failed_status (j : Job) (e : String) (now : String) :
    (finalizeJob j JobStatus.FAILED (some e) now).status = JobStatus.FAILED := by
  unfold finalizeJob
  by_cases he : e ≠ "" <;> simp [he]

theorem finalizeJob_failed_error (j : Job) (e : String) (now : String) (he : e ≠ "") :
    (finalizeJob j JobStatus.FAILED (some e) now).error = some e := by
  unfold finalizeJob
  simp [he]

/-- C5: on the failure finalisation path (not cancelled, and the success
guard fails) the job status becomes FAILED and the error is the first
defined of: the pre-set non-empty job.error; the last stdout_tail line
beginning with "[stderr]"; the exit-code message when the code is
non-zero; otherwise the missing-result message. -/
theorem finalize_failure_spec (job : Job) (rc : Int) (expectedPath : String)
    (expectedExists : Bool) (onDisk : String → Bool) (now : String)
    (hnc : job.status ≠ JobStatus.CANCELLED)
    (hfail : ¬ (rc = 0 ∧ result_ready (apply_expected job expectedPath expectedExists) onDisk = true)) :
    (finalize_after_exit job rc expectedPath expectedExists onDisk now).status
        = JobStatus.FAILED ∧
    (∀ e, job.error = some e → e ≠ "" →
        (finalize_after_exit job rc expectedPath expectedExists onDisk now).error
          = some e) ∧
    ((job.error = none ∨ job.error = some "") →
      ((∀ l, (job.stdout_tail.filter (fun s => str_startswith s "[stderr]")).getLast? = some l →
          (finalize_after_exit job rc expectedPath expectedExists onDisk now).error
            = some l) ∧
       ((job.stdout_tail.filter (fun s => str_startswith s "[stderr]")).getLast? = none →
          rc ≠ 0 →
          (finalize_after_exit job rc expectedPath expectedExists onDisk now).error
            = some s!"Process exited with code {rc}") ∧
       ((job.stdout_tail.filter (fun s => str_startswith s "[stderr]")).getLast? = none →
          rc = 0 →
          (finalize_after_exit job rc expectedPath expectedExists onDisk now).error
            = some "Process completed but no result file was found"))) := by
  have herr : (apply_expected job expectedPath expectedExists).error = job.error := by
    unfold apply_expected
    by_cases h : expectedExists <;> simp [h]
  have htail : (apply_expected job expectedPath expectedExists).stdout_tail
      = job.stdout_tail := by
    unfold apply_expected
    by_cases h : expectedExists <;> simp [h]
  have key : finalize_after_exit job rc expectedPath expectedExists onDisk now
      = finalizeJob (apply_expected job expectedPath expectedExists) JobStatus.FAILED
          (some (failure_error (apply_expected job expectedPath expectedExists) rc)) now := by
    unfold finalize_after_exit
    simp only [if_neg hnc, if_neg hfail]
  have hfb : fallback_error (apply_expected job expectedPath expectedExists) rc
      = fallback_error job rc := by
    unfold fallback_error
    rw [htail]
  have hgot : (finalize_after_exit job rc expectedPath expectedExists onDisk now).error
      = some (failure_error (apply_expected job expectedPath expectedExists) rc) := by
    rw [key]
    exact finalizeJob_failed_error _ _ _ (failure_error_ne_empty _ _)
  refine ⟨by rw [key]; exact finalizeJob_failed_status _ _ _, ?_, ?_⟩
  · intro e he hne
    rw [hgot]
    unfold failure_error
    rw [herr, he]
    simp [hne]
  · intro hunset
    have herr1 : failure_error (apply_expected job expectedPath expectedExists) rc
        = fallback_error job rc := by
      unfold failure_error
      rw [herr]
      rcases hunset with h | h <;> simp [h, hfb]
    refine ⟨?_, ?_, ?_⟩
    · intro l hl
      rw [hgot, herr1]
      unfold fallback_error
      rw [hl]
    · intro hl hrc
      rw [hgot, herr1]
      unfold fallback_error
      rw [hl]
      simp [hrc]
    · intro hl hrc
      rw [hgot, herr1]
      unfold fallback_error
      rw [hl]
      simp [hrc]

/-- C5 witness: a crashed example run with exit code 1 and a stderr line in
the tail finalises FAILED with that stderr line as the error. -/
theorem finalize_failure_spec_witness :
    ((exampleRunningJob.status ≠ JobStatus.CANCELLED) ∧
     ¬ ((1 : Int) = 0 ∧
        result_ready (apply_expected { exampleRunningJob with
            stdout_tail := ["[stdout] Parsing PDF", "[stderr] boom"] }
          "/repo/results/doc_structure.json" false) (fun _ => false) = true)) ∧
    (finalize_after_exit
        { exampleRunningJob with stdout_tail := ["[stdout] Parsing PDF", "[stderr] boom"] }
        1 "/repo/results/doc_structure.json" false (fun _ => false) "t9").status
      = JobStatus.FAILED ∧
    (finalize_after_exit
        { exampleRunningJob with stdout_tail := ["[stdout] Parsing PDF", "[stderr] boom"] }
        1 "/repo/results/doc_structure.json" false (fun _ => false) "t9").error
      = some "[stderr] boom" := by
  have h := finalize_failure_spec
    { exampleRunningJob with stdout_tail := ["[stdout] Parsing PDF", "[stderr] boom"] }
    1 "/repo/results/doc_structure.json" false (fun _ => false) "t9"
    (by decide) (by simp [apply_expected, result_ready, exampleRunningJob, exampleJob])
  exact ⟨⟨by decide, by simp [apply_expected, result_ready, exampleRunningJob, exampleJob]⟩,
    h.1, (h.2.2 (Or.inl rfl)).1 "[stderr] boom" (by decide)⟩

/-- Role of a chat message, from webapi/models.py ChatRole. -/
inductive ChatRole where
  | user
  | assistant
  | system
deriving DecidableEq, Repr

/-- Status of a chat run, from webapi/models.py ChatRunStatus. -/
inductive ChatRunStatus where
  | RUNNING
  | COMPLETED
  | FAILED
deriving DecidableEq, Repr

/-- A citation from an assistant message to a tree node, from
webapi/models.py NodeCitation. -/
structure NodeCitation where
  node_id : String
  title : Option String
  start_index : Option Int
  end_index : Option Int
  line_num : Option Int
deriving DecidableEq, Repr

/-- One chat message, from webapi/models.py ChatMessage. -/
structure ChatMessage where
  id : String
  role : ChatRole
  content : String
  created_at : String
  citations : List NodeCitation
deriving DecidableEq, Repr

/-- One chat run, from webapi/models.py ChatRun. -/
structure ChatRun where
  id : String
  status : ChatRunStatus
  user_message_id : String
  assistant_message_id : String
  created_at : String
  updated_at : String
  retrieval_thinking : Option String
  selected_node_ids : List String
  error : Option String
deriving DecidableEq, Repr

/-- A persisted chat session, from webapi/models.py PersistedChatSession
(which inherits every field of ChatSessionDetail and ChatSessionSummary). -/
structure ChatSession where
  id : String
  job_id : String
  title : String
  created_at : String
  updated_at : String
  message_count : Nat
  last_message_preview : Option String
  active_run_id : Option String
  active_run_status : Option ChatRunStatus
  messages : List ChatMessage
  runs : List ChatRun
deriving DecidableEq, Repr

/-- ChatManager._run_by_id: first run in the session run list with the
given id. -/
def run_by_id (s : ChatSession) (rid : String) : Option ChatRun :=
  s.runs.find? (fun r => r.id == rid)

/-- ChatManager._message_by_id: first message with the given id. -/
def message_by_id (s : ChatSession) (mid : String) : Option ChatMessage :=
  s.messages.find? (fun m => m.id == mid)

/-- ChatManager._active_run: none when active_run_id is falsy, else the
first run carrying that id. -/
def active_run (s : ChatSession) : Option ChatRun :=
  match s.active_run_id with
  | none => none
  | some rid => if rid = "" then none else run_by_id s rid

/-- ChatManager._persist: before saving, re-derive the summary fields
message_count, last_message_preview (stripped content of the last message
truncated to 140 characters, with an empty truncation mapped to None) and
active_run_status.  The store write does not change the record. -/
def persistSession (s : ChatSession) : ChatSession :=
  let message_count := s.messages.length
  let preview :=
    match s.messages.getLast? with
    | some m =>
      let p := pyTruncate 140 (pyStrip m.content)
      if p = "" then none else some p
    | none => none
  let status := (active_run s).map (fun r => r.status)
  { s with message_count := message_count,
           last_message_preview := preview,
           active_run_status := status }

/-- In-place mutation of the first run with the given id, as the Python
code mutates the looked-up run object inside session.runs. -/
def set_run (runs : List ChatRun) (rid : String) (f : ChatRun → ChatRun) : List ChatRun :=
  match runs with
  | [] => []
  | r :: rest => if r.id == rid then f r :: rest else r :: set_run rest rid f

/-- In-place mutation of the first message with the given id. -/
def set_message (msgs : List ChatMessage) (mid : String)
    (f : ChatMessage → ChatMessage) : List ChatMessage :=
  match msgs with
  | [] => []
  | m :: rest => if m.id == mid then f m :: rest else m :: set_message rest mid f

/-- ChatManager restart reconciliation, from the loop in
ChatManager.__init__: a loaded session whose active run is RUNNING has
that run flipped to FAILED with the fixed message, active_run_id cleared,
updated_at refreshed and the session persisted; other sessions are left
untouched. -/
def reconcile_session (s : ChatSession) (now : String) : ChatSession :=
  match active_run s with
  | some run =>
    if run.status = ChatRunStatus.RUNNING then
      persistSession
        { s with
            runs := set_run s.runs run.id (fun r =>
              { r with status := ChatRunStatus.FAILED,
                       error := some "Backend restarted while chat run was active",
                       updated_at := now }),
            active_run_id := none,
            updated_at := now }
    else s
  | none => s

/-- Typed errors raised by the chat supervisor: ChatValidationError,
ChatConflictError, FileNotFoundError and ChatSessionNotFoundError in
webapi/chat_manager.py. -/
inductive ChatErr where
  | validation (msg : String)
  | conflict (msg : String)
  | fileNotFound (msg : String)
  | notFound (sid : String)
deriving DecidableEq, Repr

/-- Response payload of start_message_run, from webapi/models.py
ChatMessageCreateResponse. -/
structure ChatMessageCreateResponse where
  run_id : String
  user_message_id : String
  assistant_message_id : String
deriving DecidableEq, Repr

/-- ChatManager._validate_job_ready: Validation unless the job is
COMPLETED, FileNotFoundError when result_file is falsy or the file is
missing on disk.  The job record itself is reduced to the fields the
check reads. -/
def validate_job_ready (jobStatus : JobStatus) (result_file : Option String)
    (onDisk : String → Bool) : Except ChatErr Unit :=
  if jobStatus ≠ JobStatus.COMPLETED then
    .error (.validation "Chat is only available for completed jobs")
  else
    match result_file with
    | none => .error (.fileNotFound "Result file not available for this job")
    | some p =>
      if p = "" then .error (.fileNotFound "Result file not available for this job")
      else if onDisk p then .ok ()
      else .error (.fileNotFound "Result file is missing on disk")

/-- The conflict guard of start_message_run: an active run exists and its
status is RUNNING. -/
def has_running_active_run (s : ChatSession) : Bool :=
  match active_run s with
  | some a => decide (a.status = ChatRunStatus.RUNNING)
  | none => false

/-- ChatManager.start_message_run, with the fresh uuid-based identifiers
and the timestamp passed in by the caller: Validation on a
whitespace-only message, Conflict when a RUNNING run is active, then the
job-readiness re-check, then append the user and empty assistant
messages, append the RUNNING run, point active_run_id at it, persist and
return the three identifiers.  Spawning the pipeline task and publishing
the started event do not change the session record. -/
def start_message_run (s : ChatSession) (content : String) (jobStatus : JobStatus)
    (result_file : Option String) (onDisk : String → Bool)
    (user_message_id assistant_message_id run_id : String) (now : String) :
    Except ChatErr (ChatSession × ChatMessageCreateResponse) :=
  let trimmed := pyStrip content
  if trimmed = "" then .error (.validation "Message content cannot be empty")
  else if has_running_active_run s then
    .error (.conflict "A chat run is already active for this session")
  else
    match validate_job_ready jobStatus result_file onDisk with
    | .error e => .error e
    | .ok _ =>
      let user_message : ChatMessage :=
        { id := user_message_id, role := .user, content := trimmed,
          created_at := now, citations := [] }
      let assistant_message : ChatMessage :=
        { id := assistant_message_id, role := .assistant, content := "",
          created_at := now, citations := [] }
      let run : ChatRun :=
        { id := run_id, status := .RUNNING,
          user_message_id := user_message.id,
          assistant_message_id := assistant_message.id,
          created_at := now, updated_at := now,
          retrieval_thinking := none, selected_node_ids := [], error := none }
      let s :=
        { s with messages := s.messages ++ [user_message, assistant_message],
                 runs := s.runs ++ [run],
                 active_run_id := some run.id,
                 updated_at := now }
      .ok (persistSession s,
        { run_id := run.id,
          user_message_id := user_message.id,
          assistant_message_id := assistant_message.id })

/-- The final locked block of ChatManager._run_pipeline on success: store
the final answer and citations on the assistant message, mark the run
COMPLETED, clear active_run_id and persist.  When the run or the
assistant message is gone the block returns without persisting. -/
def complete_run (s : ChatSession) (run_id : String) (final_answer : String)
    (citations : List NodeCitation) (now : String) : ChatSession :=
  match run_by_id s run_id with
  | none => s
  | some run =>
    match message_by_id s run.assistant_message_id with
    | none => s
    | some _ =>
      persistSession
        { s with
            messages := set_message s.messages run.assistant_message_id (fun m =>
              { m with content := final_answer, citations := citations }),
            runs := set_run s.runs run_id (fun r =>
              { r with status := ChatRunStatus.COMPLETED, updated_at := now }),
            active_run_id := none,
            updated_at := now }

/-- The exception handler of ChatManager._run_pipeline: mark the run
FAILED with the exception text, clear active_run_id and persist; when the
run is gone only the failure event is published. -/
def fail_run (s : ChatSession) (run_id : String) (exc : String) (now : String) :
    ChatSession :=
  match run_by_id s run_id with
  | none => s
  | some _ =>
    persistSession
      { s with
          runs := set_run s.runs run_id (fun r =>
            { r with status := ChatRunStatus.FAILED, error := some exc,
                     updated_at := now }),
          active_run_id := none,
          updated_at := now }

/-- The title defaulting of ChatManager.create_session:
(title or "Document Chat").strip() or "Document Chat". -/
def session_title (title : Option String) : String :=
  let base :=
    match title with
    | some t => if t ≠ "" then t else "Document Chat"
    | none => "Document Chat"
  let stripped := pyStrip base
  if stripped = "" then "Document Chat" else stripped

/-- The fresh session record built by ChatManager.create_session, which
is then persisted under the lock. -/
def new_session (session_id job_id : String) (title : Option String)
    (now : String) : ChatSession :=
  { id := session_id, job_id := job_id, title := session_title title,
    created_at := now, updated_at := now, message_count := 0,
    last_message_preview := none, active_run_id := none,
    active_run_status := none, messages := [], runs := [] }

/-- The summary-field consistency _persist re-establishes: message_count
matches the message list, last_message_preview is the stripped and
truncated content of the last message (None when empty or absent), and
active_run_status mirrors the status of the referenced active run. -/
def summary_fields_consistent (s : ChatSession) : Prop :=
  s.message_count = s.messages.length ∧
  s.last_message_preview =
    (match s.messages.getLast? with
     | some m =>
       if pyTruncate 140 (pyStrip m.content) = "" then none
       else some (pyTruncate 140 (pyStrip m.content))
     | none => none) ∧
  s.active_run_status = (active_run s).map (fun r => r.status)

/-- The session invariant of the spec: whenever active_run_id is set, the
run it references exists in the run list and is RUNNING. -/
def session_inv (s : ChatSession) : Prop :=
  ∀ rid, s.active_run_id = some rid →
    ∃ run, run_by_id s rid = some run ∧ run.status = ChatRunStatus.RUNNING

theorem persistSession_runs (s : ChatSession) :
    (persistSession s).runs = s.runs := rfl

theorem persistSession_messages (s : ChatSession) :
    (persistSession s).messages = s.messages := rfl

theorem persistSession_active_run_id (s : ChatSession) :
    (persistSession s).active_run_id = s.active_run_id := rfl

theorem run_by_id_persistSession (s : ChatSession) (rid : String) :
    run_by_id (persistSession s) rid = run_by_id s rid := rfl

theorem session_inv_persistSession (s : ChatSession) (h : session_inv s) :
    session_inv (persistSession s) := by
  intro rid hrid
  exact h rid hrid

theorem find?_cons_pos {α : Type} (p : α → Bool) (a : α) (l : List α)
    (h : p a = true) : (a :: l).find? p = some a := by
  have hdef : (a :: l).find? p =
      match p a with | true => some a | false => l.find? p := rfl
  rw [hdef, h]

theorem find?_cons_neg {α : Type} (p : α → Bool) (a : α) (l : List α)
    (h : p a = false) : (a :: l).find? p = l.find? p := by
  have hdef : (a :: l).find? p =
      match p a with | true => some a | false => l.find? p := rfl
  rw [hdef, h]

theorem find?_set_run (runs : List ChatRun) (rid : String) (f : ChatRun → ChatRun)
    (hf : ∀ r, (f r).id = r.id) (run : ChatRun)
    (h : runs.find? (fun r => r.id == rid) = some run) :
    (set_run runs rid f).find? (fun r => r.id == rid) = some (f run) := by
  induction runs with
  | nil => cases h
  | cons r rest ih =>
    by_cases hr : (r.id == rid) = true
    · rw [find?_cons_pos (fun r => r.id == rid) r rest hr] at h
      cases h
      unfold set_run
      rw [if_pos hr]
      have hfr : ((f run).id == rid) = true := by
        rw [hf run]
        exact hr
      exact find?_cons_pos (fun r => r.id == rid) (f run) rest hfr
    · have hrb : (r.id == rid) = false := Bool.eq_false_iff.mpr hr
      rw [find?_cons_neg (fun r => r.id == rid) r rest hrb] at h
      unfold set_run
      rw [if_neg hr]
      rw [find?_cons_neg (fun r => r.id == rid) r (set_run rest rid f) hrb]
      exact ih h

theorem active_run_some (s : ChatSession) (run : ChatRun)
    (h : active_run s = some run) :
    s.active_run_id = some run.id ∧
    run_by_id s run.id = some run := by
  unfold active_run at h
  cases har : s.active_run_id with
  | none => rw [har] at h; cases h
  | some rid =>
    rw [har] at h
    have h2 : (if rid = "" then (none : Option ChatRun) else run_by_id s rid)
        = some run := h
    by_cases hrid : rid = ""
    · rw [if_pos hrid] at h2; cases h2
    · rw [if_neg hrid] at h2
      have h3 : s.runs.find? (fun r => r.id == rid) = some run := h2
      have hba := List.find?_some h3
      have hid : run.id = rid := eq_of_beq hba
      constructor
      · rw [hid]
      · rw [hid]; exact h2

/-- C3: the chat supervisor keeps active_run_id consistent: it is set only
when the referenced run exists in the session run list with status
RUNNING.  On construction a loaded session whose active run is RUNNING
has that run flipped to FAILED with the fixed error and active_run_id
cleared; reconciliation, run start (with a fresh run id), run completion,
run failure and session creation all preserve the invariant. -/
theorem chat_active_run_invariant :
    (∀ (s : ChatSession) (now : String) (run : ChatRun),
        active_run s = some run → run.status = ChatRunStatus.RUNNING →
        (reconcile_session s now).active_run_id = none ∧
        run_by_id (reconcile_session s now) run.id =
          some { run with status := ChatRunStatus.FAILED,
                          error := some "Backend restarted while chat run was active",
                          updated_at := now }) ∧
    (∀ (s : ChatSession) (now : String),
        session_inv s → session_inv (reconcile_session s now)) ∧
    (∀ (s : ChatSession) (content : String) (js : JobStatus)
        (rf : Option String) (od : String → Bool) (u a r now : String)
        (s2 : ChatSession) (resp : ChatMessageCreateResponse),
        start_message_run s content js rf od u a r now = .ok (s2, resp) →
        (∀ rr ∈ s.runs, rr.id ≠ r) →
        session_inv s2) ∧
    (∀ (s : ChatSession) (rid ans : String) (cits : List NodeCitation) (now : String),
        session_inv s → session_inv (complete_run s rid ans cits now)) ∧
    (∀ (s : ChatSession) (rid exc now : String),
        session_inv s → session_inv (fail_run s rid exc now)) ∧
    (∀ (sid jid : String) (t : Option String) (now : String),
        session_inv (persistSession (new_session sid jid t now))) := by
  refine ⟨?_, ?_, ?_, ?_, ?_, ?_⟩
  · intro s now run har hrun
    obtain ⟨hid, hfind⟩ := active_run_some s run har
    have hred : reconcile_session s now =
        persistSession
          { s with
              runs := set_run s.runs run.id (fun r =>
                { r with status := ChatRunStatus.FAILED,
                         error := some "Backend restarted while chat run was active",
                         updated_at := now }),
              active_run_id := none,
              updated_at := now } := by
      simp [reconcile_session, har, hrun]
    rw [hred]
    refine ⟨rfl, ?_⟩
    rw [run_by_id_persistSession]
    unfold run_by_id
    exact find?_set_run s.runs run.id
      (fun r => { r with status := ChatRunStatus.FAILED,
                         error := some "Backend restarted while chat run was active",
                         updated_at := now })
      (fun r => rfl) run hfind
  · intro s now hinv
    cases har : active_run s with
    | none =>
      have hred : reconcile_session s now = s := by simp [reconcile_session, har]
      rw [hred]; exact hinv
    | some run =>
      by_cases hrun : run.status = ChatRunStatus.RUNNING
      · have hred : reconcile_session s now =
            persistSession
              { s with
                  runs := set_run s.runs run.id (fun r =>
                    { r with status := ChatRunStatus.FAILED,
                             error := some "Backend restarted while chat run was active",
                             updated_at := now }),
                  active_run_id := none,
                  updated_at := now } := by
          simp [reconcile_session, har, hrun]
        rw [hred]
        intro rid hrid
        rw [persistSession_active_run_id] at hrid
        cases hrid
      · have hred : reconcile_session s now = s := by
          simp [reconcile_session, har, hrun]
        rw [hred]; exact hinv
  · intro s content js rf od u a r now s2 resp hok hfresh
    simp only [start_message_run] at hok
    by_cases htr : pyStrip content = ""
    · rw [if_pos htr] at hok; cases hok
    · rw [if_neg htr] at hok
      by_cases hact : has_running_active_run s = true
      · rw [if_pos hact] at hok; cases hok
      · simp only [hact, if_false, Bool.false_eq_true] at hok
        cases hv : validate_job_ready js rf od with
        | error e => rw [hv] at hok; cases hok
        | ok u2 =>
          rw [hv] at hok
          simp only [Except.ok.injEq, Prod.mk.injEq] at hok
          obtain ⟨hs2, hresp⟩ := hok
          subst hs2
          intro rid hrid
          rw [persistSession_active_run_id] at hrid
          cases hrid
          refine ⟨{ id := r, status := ChatRunStatus.RUNNING, user_message_id := u,
                    assistant_message_id := a, created_at := now, updated_at := now,
                    retrieval_thinking := none, selected_node_ids := [],
                    error := none }, ?_, rfl⟩
          rw [run_by_id_persistSession]
          unfold run_by_id
          have hnone : s.runs.find? (fun rr => rr.id == r) = none := by
            rw [List.find?_eq_none]
            intro x hx
            simpa using hfresh x hx
          simp [List.find?_append, hnone, List.find?]
  · intro s rid ans cits now hinv
    cases h1 : run_by_id s rid with
    | none =>
      have hred : complete_run s rid ans cits now = s := by
        simp [complete_run, h1]
      rw [hred]; exact hinv
    | some run =>
      cases h2 : message_by_id s run.assistant_message_id with
      | none =>
        have hred : complete_run s rid ans cits now = s := by
          simp [complete_run, h1, h2]
        rw [hred]; exact hinv
      | some m =>
        have hred : complete_run s rid ans cits now =
            persistSession
              { s with
                  messages := set_message s.messages run.assistant_message_id (fun m =>
                    { m with content := ans, citations := cits }),
                  runs := set_run s.runs rid (fun r =>
                    { r with status := ChatRunStatus.COMPLETED, updated_at := now }),
                  active_run_id := none,
                  updated_at := now } := by
          simp [complete_run, h1, h2]
        rw [hred]
        intro rid2 hrid2
        rw [persistSession_active_run_id] at hrid2
        cases hrid2
  · intro s rid exc now hinv
    cases h1 : run_by_id s rid with
    | none =>
      have hred : fail_run s rid exc now = s := by simp [fail_run, h1]
      rw [hred]; exact hinv
    | some run =>
      have hred : fail_run s rid exc now =
          persistSession
            { s with
                runs := set_run s.runs rid (fun r =>
                  { r with status := ChatRunStatus.FAILED, error := some exc,
                           updated_at := now }),
                active_run_id := none,
                updated_at := now } := by
        simp [fail_run, h1]
      rw [hred]
      intro rid2 hrid2
      rw [persistSession_active_run_id] at hrid2
      cases hrid2
  · intro sid jid t now rid hrid
    rw [persistSession_active_run_id] at hrid
    cases hrid

/-- A concrete chat run in its RUNNING state. -/
def exampleRun : ChatRun where
  id := "run_abc123def456"
  status := .RUNNING
  user_message_id := "msg_u1"
  assistant_message_id := "msg_a1"
  created_at := "t0"
  updated_at := "t0"
  retrieval_thinking := none
  selected_node_ids := []
  error := none

/-- A concrete session with an active RUNNING run, as persisted mid-run. -/
def exampleActiveSession : ChatSession where
  id := "chat_abc123def456"
  job_id := "a1b2c3d4e5f6"
  title := "Document Chat"
  created_at := "t0"
  updated_at := "t0"
  message_count := 2
  last_message_preview := none
  active_run_id := some "run_abc123def456"
  active_run_status := some .RUNNING
  messages :=
    [{ id := "msg_u1", role := .user, content := "What is revenue?",
       created_at := "t0", citations := [] },
     { id := "msg_a1", role := .assistant, content := "", created_at := "t0",
       citations := [] }]
  runs := [exampleRun]

/-- The concrete session after its run completed. -/
def exampleIdleSession : ChatSession :=
  { exampleActiveSession with
      active_run_id := none,
      active_run_status := none,
      runs := [{ exampleRun with status := .COMPLETED }] }

/-- C3 witness: reconciling the concrete mid-run session clears
active_run_id, flips the run to FAILED with the fixed message, and the
resulting session satisfies the invariant. -/
theorem chat_active_run_invariant_witness :
    (reconcile_session exampleActiveSession "t1").active_run_id = none ∧
    run_by_id (reconcile_session exampleActiveSession "t1") "run_abc123def456" =
      some { exampleRun with
               status := ChatRunStatus.FAILED,
               error := some "Backend restarted while chat run was active",
               updated_at := "t1" } ∧
    session_inv (reconcile_session exampleActiveSession "t1") := by
  have h1 := chat_active_run_invariant.1 exampleActiveSession "t1" exampleRun
    (by decide) rfl
  have hinv : session_inv exampleActiveSession := by
    intro rid hrid
    have hr : "run_abc123def456" = rid := Option.some.inj hrid
    subst hr
    exact ⟨exampleRun, by decide, rfl⟩
  have h2 := chat_active_run_invariant.2.1 exampleActiveSession "t1" hinv
  exact ⟨h1.1, h1.2, h2⟩

/-- C6: given a ready job (COMPLETED with a result file on disk),
start_message_run raises Validation exactly when the trimmed content is
empty, raises Conflict when the active run is RUNNING, and otherwise
appends the user message and the empty assistant message with the fresh
ids, appends a RUNNING run, points active_run_id at it and returns the
three identifiers. -/
theorem start_message_run_spec (s : ChatSession) (content : String)
    (js : JobStatus) (rf : Option String) (od : String → Bool) (p : String)
    (u a r now : String)
    (hjs : js = JobStatus.COMPLETED) (hrf : rf = some p) (hp : p ≠ "")
    (hod : od p = true) :
    ((∃ m, start_message_run s content js rf od u a r now =
        .error (.validation m)) ↔ pyStrip content = "") ∧
    (pyStrip content ≠ "" → has_running_active_run s = true →
        start_message_run s content js rf od u a r now =
          .error (.conflict "A chat run is already active for this session")) ∧
    (pyStrip content ≠ "" → has_running_active_run s = false →
        ∀ s2 resp, start_message_run s content js rf od u a r now = .ok (s2, resp) →
          resp = { run_id := r, user_message_id := u, assistant_message_id := a } ∧
          s2.messages = s.messages ++
            [{ id := u, role := .user, content := pyStrip content,
               created_at := now, citations := [] },
             { id := a, role := .assistant, content := "", created_at := now,
               citations := [] }] ∧
          s2.runs = s.runs ++
            [{ id := r, status := .RUNNING, user_message_id := u,
               assistant_message_id := a, created_at := now, updated_at := now,
               retrieval_thinking := none, selected_node_ids := [],
               error := none }] ∧
          s2.active_run_id = some r) ∧
    (pyStrip content ≠ "" → has_running_active_run s = false →
        ∃ s2 resp, start_message_run s content js rf od u a r now = .ok (s2, resp)) := by
  subst hjs
  subst hrf
  have hv : validate_job_ready JobStatus.COMPLETED (some p) od = .ok () := by
    simp [validate_job_ready, hp, hod]
  refine ⟨⟨?_, ?_⟩, ?_, ?_, ?_⟩
  · rintro ⟨m, hm⟩
    by_contra htr
    simp only [start_message_run, htr, if_false] at hm
    by_cases hact : has_running_active_run s = true
    · rw [if_pos hact] at hm
      cases hm
    · simp only [hact, Bool.false_eq_true, if_false, hv] at hm
      exact Except.noConfusion hm
  · intro htr
    exact ⟨"Message content cannot be empty", by simp [start_message_run, htr]⟩
  · intro htr hact
    simp [start_message_run, htr, hact]
  · intro htr hact s2 resp hok
    simp only [start_message_run, htr, if_false, hact, Bool.false_eq_true, hv,
      Except.ok.injEq, Prod.mk.injEq] at hok
    obtain ⟨hs2, hresp⟩ := hok
    subst hs2
    subst hresp
    exact ⟨rfl, rfl, rfl, rfl⟩
  · intro htr hact
    exact ⟨persistSession
      { s with
          messages := s.messages ++
            [{ id := u, role := .user, content := pyStrip content,
               created_at := now, citations := [] },
             { id := a, role := .assistant, content := "", created_at := now,
               citations := [] }],
          runs := s.runs ++
            [{ id := r, status := .RUNNING, user_message_id := u,
               assistant_message_id := a, created_at := now, updated_at := now,
               retrieval_thinking := none, selected_node_ids := [],
               error := none }],
          active_run_id := some r,
          updated_at := now },
      { run_id := r, user_message_id := u, assistant_message_id := a },
      by simp [start_message_run, htr, hact, hv]⟩

/-- C6 witness: on concrete sessions the three behaviours are exercised:
success on an idle session, Validation on whitespace-only content,
Conflict while the example run is active. -/
theorem start_message_run_spec_witness :
    (∃ s2 resp, start_message_run exampleIdleSession " What is revenue? "
        JobStatus.COMPLETED (some "/repo/results/doc_structure.json")
        (fun _ => true) "msg_u2" "msg_a2" "run_def789abc012" "t3"
        = .ok (s2, resp)) ∧
    (∃ m, start_message_run exampleActiveSession "   " JobStatus.COMPLETED
        (some "/repo/results/doc_structure.json") (fun _ => true)
        "msg_u2" "msg_a2" "run_def789abc012" "t3" = .error (.validation m)) ∧
    start_message_run exampleActiveSession "Hello" JobStatus.COMPLETED
        (some "/repo/results/doc_structure.json") (fun _ => true)
        "msg_u2" "msg_a2" "run_def789abc012" "t3"
      = .error (.conflict "A chat run is already active for this session") := by
  have h1 := start_message_run_spec exampleIdleSession " What is revenue? "
    JobStatus.COMPLETED (some "/repo/results/doc_structure.json") (fun _ => true)
    "/repo/results/doc_structure.json" "msg_u2" "msg_a2" "run_def789abc012" "t3"
    rfl rfl (by decide) rfl
  have h2 := start_message_run_spec exampleActiveSession "   "
    JobStatus.COMPLETED (some "/repo/results/doc_structure.json") (fun _ => true)
    "/repo/results/doc_structure.json" "msg_u2" "msg_a2" "run_def789abc012" "t3"
    rfl rfl (by decide) rfl
  have h3 := start_message_run_spec exampleActiveSession "Hello"
    JobStatus.COMPLETED (some "/repo/results/doc_structure.json") (fun _ => true)
    "/repo/results/doc_structure.json" "msg_u2" "msg_a2" "run_def789abc012" "t3"
    rfl rfl (by decide) rfl
  exact ⟨h1.2.2.2 (by decide) (by decide),
         h2.1.mpr (by decide),
         h3.2.1 (by decide) (by decide)⟩

theorem persistSession_summary (s : ChatSession) :
    summary_fields_consistent (persistSession s) := ⟨rfl, rfl, rfl⟩

/-- C10: every chat supervisor operation that persists a session re-derives
the summary fields: afterwards message_count matches the message list,
last_message_preview is the stripped 140-character truncation of the last
message content (None when empty or absent), and active_run_status is the
status of the run referenced by active_run_id (None without one). -/
theorem persist_summary_spec :
    (∀ s : ChatSession, summary_fields_consistent (persistSession s)) ∧
    (∀ (s : ChatSession) (now : String), summary_fields_consistent s →
        summary_fields_consistent (reconcile_session s now)) ∧
    (∀ (s : ChatSession) (rid ans : String) (cits : List NodeCitation) (now : String),
        summary_fields_consistent s →
        summary_fields_consistent (complete_run s rid ans cits now)) ∧
    (∀ (s : ChatSession) (rid exc now : String), summary_fields_consistent s →
        summary_fields_consistent (fail_run s rid exc now)) ∧
    (∀ (s : ChatSession) (content : String) (js : JobStatus) (rf : Option String)
        (od : String → Bool) (u a r now : String) (s2 : ChatSession)
        (resp : ChatMessageCreateResponse),
        start_message_run s content js rf od u a r now = .ok (s2, resp) →
        summary_fields_consistent s2) := by
  refine ⟨persistSession_summary, ?_, ?_, ?_, ?_⟩
  · intro s now hcons
    cases har : active_run s with
    | none =>
      have hred : reconcile_session s now = s := by simp [reconcile_session, har]
      rw [hred]; exact hcons
    | some run =>
      by_cases hrun : run.status = ChatRunStatus.RUNNING
      · have hred : reconcile_session s now =
            persistSession
              { s with
                  runs := set_run s.runs run.id (fun r =>
                    { r with status := ChatRunStatus.FAILED,
                             error := some "Backend restarted while chat run was active",
                             updated_at := now }),
                  active_run_id := none,
                  updated_at := now } := by
          simp [reconcile_session, har, hrun]
        rw [hred]
        exact persistSession_summary _
      · have hred : reconcile_session s now = s := by
          simp [reconcile_session, har, hrun]
        rw [hred]; exact hcons
  · intro s rid ans cits now hcons
    cases h1 : run_by_id s rid with
    | none =>
      have hred : complete_run s rid ans cits now = s := by simp [complete_run, h1]
      rw [hred]; exact hcons
    | some run =>
      cases h2 : message_by_id s run.assistant_message_id with
      | none =>
        have hred : complete_run s rid ans cits now = s := by
          simp [complete_run, h1, h2]
        rw [hred]; exact hcons
      | some m =>
        have hred : complete_run s rid ans cits now =
            persistSession
              { s with
                  messages := set_message s.messages run.assistant_message_id (fun m =>
                    { m with content := ans, citations := cits }),
                  runs := set_run s.runs rid (fun r =>
                    { r with status := ChatRunStatus.COMPLETED, updated_at := now }),
                  active_run_id := none,
                  updated_at := now } := by
          simp [complete_run, h1, h2]
        rw [hred]
        exact persistSession_summary _
  · intro s rid exc now hcons
    cases h1 : run_by_id s rid with
    | none =>
      have hred : fail_run s rid exc now = s := by simp [fail_run, h1]
      rw [hred]; exact hcons
    | some run =>
      have hred : fail_run s rid exc now =
          persistSession
            { s with
                runs := set_run s.runs rid (fun r =>
                  { r with status := ChatRunStatus.FAILED, error := some exc,
                           updated_at := now }),
                active_run_id := none,
                updated_at := now } := by
        simp [fail_run, h1]
      rw [hred]
      exact persistSession_summary _
  · intro s content js rf od u a r now s2 resp hok
    simp only [start_message_run] at hok
    by_cases htr : pyStrip content = ""
    · rw [if_pos htr] at hok; cases hok
    · rw [if_neg htr] at hok
      by_cases hact : has_running_active_run s = true
      · rw [if_pos hact] at hok; cases hok
      · simp only [hact, Bool.false_eq_true, if_false] at hok
        cases hv : validate_job_ready js rf od with
        | error e => rw [hv] at hok; cases hok
        | ok u2 =>
          rw [hv] at hok
          simp only [Except.ok.injEq, Prod.mk.injEq] at hok
          obtain ⟨hs2, hresp⟩ := hok
          subst hs2
          exact persistSession_summary _

/-- C10 witness: persisting the concrete mid-run session yields consistent
summary fields, and so does failing its run. -/
theorem persist_summary_spec_witness :
    summary_fields_consistent (persistSession exampleActiveSession) ∧
    summary_fields_consistent (fail_run exampleActiveSession "run_abc123def456" "boom" "t4") := by
  have hcons : summary_fields_consistent exampleActiveSession := by
    refine ⟨by decide, by decide, by decide⟩
  exact ⟨persist_summary_spec.1 exampleActiveSession,
         persist_summary_spec.2.2.2.1 exampleActiveSession "run_abc123def456" "boom" "t4" hcons⟩

/-- A decoded JSON value, the model of what json.loads returns inside
webapi/chat_retrieval.py.  Numbers are restricted to the integers the
node ids use. -/
inductive JVal where
  | jNull
  | jBool (b : Bool)
  | jNum (n : Int)
  | jStr (s : String)
  | jArr (items : List JVal)
  | jObj (fields : List (String × JVal))
deriving Repr

/-- A single-quote character, kept out of source text. -/
def squote : String := String.singleton (Char.ofNat 39)

mutual

/-- Python repr of a decoded JSON value (string escaping elided). -/
def pyRepr : JVal → String
  | .jNull => "None"
  | .jBool b => if b then "True" else "False"
  | .jNum n => toString n
  | .jStr s => squote ++ s ++ squote
  | .jArr items => "[" ++ pyReprList items ++ "]"
  | .jObj fields => "\x7b" ++ pyReprFields fields ++ "\x7d"

def pyReprList : List JVal → String
  | [] => ""
  | [x] => pyRepr x
  | x :: xs => pyRepr x ++ ", " ++ pyReprList xs

def pyReprFields : List (String × JVal) → String
  | [] => ""
  | [kv] => squote ++ kv.1 ++ squote ++ ": " ++ pyRepr kv.2
  | kv :: xs => squote ++ kv.1 ++ squote ++ ": " ++ pyRepr kv.2 ++ ", " ++ pyReprFields xs

end

/-- Python str of a decoded JSON value: identity on strings, Python
renderings elsewhere. -/
def pyStr : JVal → String
  | .jStr s => s
  | .jNull => "None"
  | .jBool b => if b then "True" else "False"
  | .jNum n => toString n
  | .jArr items => pyRepr (.jArr items)
  | .jObj fields => pyRepr (.jObj fields)

@[simp] theorem pyStr_jStr (s : String) : pyStr (.jStr s) = s := rfl

/-- Python dict.get on a decoded object (decoded dicts carry unique keys). -/
def jGet (fields : List (String × JVal)) (key : String) : Option JVal :=
  match fields.find? (fun f => f.1 == key) with
  | some f => some f.2
  | none => none

/-- Python candidate[4:]. -/
def pyDrop (n : Nat) (s : String) : String := String.mk (s.data.drop n)

/-- Python str.endswith. -/
def str_endswith (s p : String) : Bool := p.data.isSuffixOf s.data

/-- The fenced-block scan inside _extract_json_text: first part whose
stripped content (with an optional json language tag removed) is an
object literal. -/
def fence_candidate : List String → Option String
  | [] => none
  | part :: rest =>
    let candidate := pyStrip part
    let candidate :=
      if str_startswith candidate "json" then pyStrip (pyDrop 4 candidate)
      else candidate
    if str_startswith candidate "\x7b" && str_endswith candidate "\x7d" then
      some candidate
    else fence_candidate rest

/-- chat_retrieval._extract_json_text: strip the raw text; when it starts
with a fence, return the first fenced part that is an object literal,
else the stripped text. -/
def extract_json_text (raw_text : String) : String :=
  let stripped := pyStrip raw_text
  if str_startswith stripped "```" then
    match fence_candidate (stripped.splitOn "```") with
    | some candidate => candidate
    | none => stripped
  else stripped

theorem extract_json_text_no_fence (raw_text : String)
    (h : str_startswith (pyStrip raw_text) "```" = false) :
    extract_json_text raw_text = pyStrip raw_text := by
  unfold extract_json_text
  simp [h]

/-- The filtering loop of parse_selection_response: keep ids as strings,
drop ids outside the allowed set, drop duplicates, stop once max_nodes
ids are collected. -/
def sel_filter (allowed : List String) (max_nodes : Nat) :
    List JVal → List String → List String
  | [], filtered => filtered
  | item :: rest, filtered =>
    let node_id := pyStr item
    if node_id ∉ allowed then sel_filter allowed max_nodes rest filtered
    else if node_id ∈ filtered then sel_filter allowed max_nodes rest filtered
    else
      let filtered2 := filtered ++ [node_id]
      if max_nodes ≤ filtered2.length then filtered2
      else sel_filter allowed max_nodes rest filtered2

/-- chat_retrieval.parse_selection_response after json.loads: require an
object with a string thinking and a list node_list, filter the list, and
return the stripped thinking with the filtered ids.  json.loads composed
with json.dumps is the identity on decoded values, and _extract_json_text
leaves a serialised object unchanged (it is brace-delimited, not
fence-delimited), so this is the whole function on a round-tripped
payload. -/
def parse_selection_response (payload : JVal) (valid_node_ids : List String)
    (max_nodes : Nat) : Except String (String × List String) :=
  match payload with
  | .jObj fields =>
    match jGet fields "thinking" with
    | some (.jStr t) =>
      match jGet fields "node_list" with
      | some (.jArr items) =>
        .ok (pyStrip t, sel_filter valid_node_ids max_nodes items [])
      | _ => .error "Tree search response must include list field \x27node_list\x27"
    | _ => .error "Tree search response must include string field \x27thinking\x27"
  | _ => .error "Tree search response must be a JSON object"

/-- The deduplication of the spec sentence: keep the first occurrence of
each id. -/
def dedupe_keep_first (seen : List String) : List String → List String
  | [] => []
  | x :: xs =>
    if x ∈ seen then dedupe_keep_first seen xs
    else x :: dedupe_keep_first (x :: seen) xs

/-- The spec-side combinator of the claim: filter to the valid set, dedupe
preserving first occurrence order, cap the length. -/
def filter_and_dedupe (ids : List String) (valid : List String) (cap : Nat) :
    List String :=
  (dedupe_keep_first [] (ids.filter (fun i => decide (i ∈ valid)))).take cap

theorem dedupe_keep_first_congr (s1 s2 : List String)
    (h : ∀ x, x ∈ s1 ↔ x ∈ s2) (l : List String) :
    dedupe_keep_first s1 l = dedupe_keep_first s2 l := by
  induction l generalizing s1 s2 with
  | nil => rfl
  | cons x xs ih =>
    unfold dedupe_keep_first
    by_cases hx : x ∈ s1
    · rw [if_pos hx, if_pos ((h x).mp hx)]
      exact ih s1 s2 h
    · rw [if_neg hx, if_neg (fun hx2 => hx ((h x).mpr hx2))]
      refine congrArg (x :: ·) (ih (x :: s1) (x :: s2) ?_)
      intro y
      simp only [List.mem_cons]
      exact or_congr Iff.rfl (h y)

theorem sel_filter_spec (allowed : List String) (cap : Nat) (ids : List String)
    (acc : List String) (hlt : acc.length < cap) :
    sel_filter allowed cap (ids.map JVal.jStr) acc
      = acc ++ (dedupe_keep_first acc
          (ids.filter (fun i => decide (i ∈ allowed)))).take (cap - acc.length) := by
  induction ids generalizing acc with
  | nil => simp [sel_filter, dedupe_keep_first]
  | cons x rest ih =>
    simp only [List.map_cons, sel_filter, pyStr_jStr, List.filter_cons]
    by_cases hval : x ∈ allowed
    · have hdx : decide (x ∈ allowed) = true := decide_eq_true hval
      rw [if_neg (not_not_intro hval)]
      by_cases hacc : x ∈ acc
      · rw [if_pos hacc]
        rw [ih acc hlt]
        simp only [hdx, if_true, dedupe_keep_first, if_pos hacc]
      · rw [if_neg hacc]
        by_cases hbreak : cap ≤ (acc ++ [x]).length
        · rw [if_pos hbreak]
          have hone : cap - acc.length = 1 := by
            simp only [List.length_append, List.length_cons, List.length_nil] at hbreak
            omega
          simp only [hdx, if_true, dedupe_keep_first, if_neg hacc, hone,
            List.take_succ_cons, List.take_zero]
        · rw [if_neg hbreak]
          have hlt2 : (acc ++ [x]).length < cap := Nat.lt_of_not_le hbreak
          rw [ih (acc ++ [x]) hlt2]
          have hcongr :
              dedupe_keep_first (acc ++ [x])
                  (rest.filter (fun i => decide (i ∈ allowed)))
                = dedupe_keep_first (x :: acc)
                    (rest.filter (fun i => decide (i ∈ allowed))) := by
            refine dedupe_keep_first_congr _ _ ?_ _
            intro y
            simp only [List.mem_append, List.mem_cons, List.mem_singleton]
            tauto
          rw [hcongr]
          have hsucc : cap - acc.length = (cap - (acc ++ [x]).length) + 1 := by
            simp only [List.length_append, List.length_cons, List.length_nil]
            simp only [List.length_append, List.length_cons, List.length_nil] at hbreak
            omega
          simp only [hdx, if_true, dedupe_keep_first, if_neg hacc, hsucc,
            List.take_succ_cons, List.append_assoc, List.cons_append, List.nil_append]
    · have hdx : decide (x ∈ allowed) = false := decide_eq_false hval
      rw [if_pos hval]
      simp only [hdx, if_false]
      exact ih acc hlt

/-- C4: parse_selection_response on the decoded round-trip of an object
with string field thinking t and list field node_list ids returns t
stripped of surrounding whitespace together with ids filtered to the
valid set, deduplicated preserving first occurrence order and capped at
six elements. -/
theorem parse_selection_response_roundtrip (t : String) (ids valid : List String) :
    parse_selection_response
        (.jObj [("thinking", .jStr t), ("node_list", .jArr (ids.map .jStr))])
        valid 6
      = .ok (pyStrip t, filter_and_dedupe ids valid 6) := by
  have hred : parse_selection_response
      (.jObj [("thinking", .jStr t), ("node_list", .jArr (ids.map .jStr))]) valid 6
      = .ok (pyStrip t, sel_filter valid 6 (ids.map .jStr) []) := rfl
  rw [hred, sel_filter_spec valid 6 ids [] (by decide)]
  simp [filter_and_dedupe]

/-- Python truthiness of a decoded JSON value. -/
def jTruthy : JVal → Bool
  | .jNull => false
  | .jBool b => b
  | .jNum n => decide (n ≠ 0)
  | .jStr s => decide (s ≠ "")
  | .jArr items => !items.isEmpty
  | .jObj fields => !fields.isEmpty

/-- Python dict assignment on an association list: overwrite in place when
the key exists, else append. -/
def dict_set {α : Type} (m : List (String × α)) (k : String) (v : α) :
    List (String × α) :=
  match m with
  | [] => [(k, v)]
  | kv :: rest =>
    if kv.1 == k then (kv.1, v) :: rest else kv :: dict_set rest k v

mutual

/-- A decoded tree node as flatten_tree reads it: its node_id value when
the key is present, and its child list (a missing or None nodes field is
the empty forest, matching the "or []" in the source). -/
inductive PNode where
  | mk (node_id : Option JVal) (children : PForest)

/-- A list of decoded tree nodes. -/
inductive PForest where
  | nil
  | cons (n : PNode) (f : PForest)

end

mutual

/-- The walk closure inside chat_retrieval.flatten_tree: record the node
under str(node_id) when node_id is truthy, then walk the children. -/
def walk (m : List (String × PNode)) : PNode → List (String × PNode)
  | .mk node_id children =>
    let m2 :=
      match node_id with
      | some v => if jTruthy v then dict_set m (pyStr v) (.mk node_id children) else m
      | none => m
    walkForest m2 children

def walkForest (m : List (String × PNode)) : PForest → List (String × PNode)
  | .nil => m
  | .cons n rest => walkForest (walk m n) rest

end

/-- chat_retrieval.flatten_tree: walk every root of the structure in
order, building the node_id to node map. -/
def flatten_tree (struct : PForest) : List (String × PNode) := walkForest [] struct

mutual

/-- The claim-side id collection: str(node_id) of every node of the
depth-first walk whose node_id key is present. -/
def spec_node_ids : PNode → List String
  | .mk node_id children =>
    (match node_id with
     | some v => [pyStr v]
     | none => []) ++ spec_node_ids_forest children

def spec_node_ids_forest : PForest → List String
  | .nil => []
  | .cons n rest => spec_node_ids n ++ spec_node_ids_forest rest

end

mutual

/-- The ids the source actually records: only truthy node_id values. -/
def truthy_node_ids : PNode → List String
  | .mk node_id children =>
    (match node_id with
     | some v => if jTruthy v then [pyStr v] else []
     | none => []) ++ truthy_node_ids_forest children

def truthy_node_ids_forest : PForest → List String
  | .nil => []
  | .cons n rest => truthy_node_ids n ++ truthy_node_ids_forest rest

end

theorem dict_set_keys {α : Type} (m : List (String × α)) (k : String) (v : α)
    (x : String) :
    x ∈ (dict_set m k v).map Prod.fst ↔ (x = k ∨ x ∈ m.map Prod.fst) := by
  induction m with
  | nil => simp [dict_set, eq_comm]
  | cons kv rest ih =>
    unfold dict_set
    by_cases hk : (kv.1 == k) = true
    · have hk2 : kv.1 = k := eq_of_beq hk
      rw [if_pos hk]
      simp [hk2, eq_comm]
    · rw [if_neg hk]
      simp only [List.map_cons, List.mem_cons, ih]
      tauto

mutual

theorem walk_keys (m : List (String × PNode)) (n : PNode) (x : String) :
    x ∈ (walk m n).map Prod.fst ↔
      (x ∈ truthy_node_ids n ∨ x ∈ m.map Prod.fst) := by
  cases n with
  | mk node_id children =>
    cases node_id with
    | none =>
      have hred : walk m (.mk none children) = walkForest m children := rfl
      rw [hred, walkForest_keys m children x]
      simp [truthy_node_ids]
    | some v =>
      by_cases ht : jTruthy v = true
      · have hred : walk m (.mk (some v) children)
            = walkForest (dict_set m (pyStr v) (.mk (some v) children)) children := by
          simp [walk, ht]
        rw [hred, walkForest_keys _ children x]
        simp only [truthy_node_ids, ht, if_true, dict_set_keys, List.mem_append,
          List.mem_singleton]
        tauto
      · have hred2 : walk m (.mk (some v) children) = walkForest m children := by
          simp [walk, ht]
        rw [hred2, walkForest_keys m children x]
        simp only [truthy_node_ids, ht, if_false, List.mem_append]
        simp

theorem walkForest_keys (m : List (String × PNode)) (f : PForest) (x : String) :
    x ∈ (walkForest m f).map Prod.fst ↔
      (x ∈ truthy_node_ids_forest f ∨ x ∈ m.map Prod.fst) := by
  cases f with
  | nil => simp [walkForest, truthy_node_ids_forest]
  | cons n rest =>
    have hred : walkForest m (.cons n rest) = walkForest (walk m n) rest := rfl
    rw [hred, walkForest_keys (walk m n) rest x]
    rw [walk_keys m n x]
    simp only [truthy_node_ids_forest, List.mem_append]
    tauto

end

/-- A tree whose single root has the falsy node_id given by the empty
string. -/
def exampleBadForest : PForest := .cons (.mk (some (.jStr "")) .nil) .nil

/-- C9 counterexample: a node_id present in the tree (the empty string,
which Python treats as falsy) is missing from the flatten_tree map, so the
key set does not equal the set of all node_id values of the walk. -/
theorem flatten_tree_counterexample :
    "" ∈ spec_node_ids_forest exampleBadForest ∧
    "" ∉ (flatten_tree exampleBadForest).map Prod.fst := by
  constructor
  · show "" ∈ [""]
    simp
  · show "" ∉ ([] : List (String × PNode)).map Prod.fst
    simp

/-- C9 amended: the key set of flatten_tree equals the set of str(node_id)
over exactly the nodes of the depth-first walk whose node_id is truthy
(non-empty, non-zero, non-None); falsy node_id values are skipped by the
walk. -/
theorem flatten_tree_keys_spec (struct : PForest) (x : String) :
    x ∈ (flatten_tree struct).map Prod.fst ↔ x ∈ truthy_node_ids_forest struct := by
  unfold flatten_tree
  rw [walkForest_keys [] struct x]
  simp

/-- The start clamp shared by both extractor branches in
chat_retrieval._extract_pdf_text: max(1, min(start_index, total_pages)). -/
def clamp_start (start_index total : Int) : Int := max 1 (min start_index total)

/-- The end clamp of _extract_pdf_text: min(total_pages, end_index),
raised to start when it falls below it. -/
def clamp_end (start end_index total : Int) : Int :=
  if min total end_index < start then start else min total end_index

/-- chat_retrieval._extract_pdf_text.  The PyMuPDF branch and the PyPDF2
fallback share this logic verbatim; the document is modelled as the list
of its per-page extracted texts.  Empty document yields the empty string;
otherwise the clamped page range [start-1, end) is joined with newlines
and stripped. -/
def extract_pdf_text (pages : List String) (start_index end_index : Int) : String :=
  if (pages.length : Int) ≤ 0 then ""
  else
    let total : Int := (pages.length : Int)
    let start := clamp_start start_index total
    let e := clamp_end start end_index total
    pyStrip (String.intercalate "\n"
      ((pages.drop (start - 1).toNat).take (e - start + 1).toNat))

/-- C8 counterexample: on a one-page document whose page text is
non-empty, a start index beyond the page count does not return the empty
string; the range is clamped to the last page and its text is returned. -/
theorem extract_pdf_text_counterexample :
    extract_pdf_text ["Single page text"] 999 1200 = "Single page text" ∧
    "Single page text" ≠ "" := by
  constructor
  · rfl
  · decide

theorem drop_length_sub_one {α : Type} (l : List α) (h : l ≠ []) :
    l.drop (l.length - 1) = [l.getLast h] := by
  induction l with
  | nil => exact absurd rfl h
  | cons a rest ih =>
    cases rest with
    | nil => rfl
    | cons b r2 =>
      have hne2 : (b :: r2) ≠ [] := by simp
      have hstep : (a :: b :: r2).drop ((a :: b :: r2).length - 1)
          = (b :: r2).drop ((b :: r2).length - 1) := by
        simp only [List.length_cons]
        rfl
      rw [hstep, ih hne2]
      rw [List.getLast_cons hne2]

/-- C8 amended: extraction is a total function that clamps rather than
raising: a document with zero pages yields the empty string, and a start
index strictly beyond the page count clamps the range to the last page,
whose stripped text (possibly non-empty) is returned. -/
theorem extract_pdf_text_clamp_spec :
    (∀ (start_index end_index : Int),
        extract_pdf_text [] start_index end_index = "") ∧
    (∀ (pages : List String) (start_index end_index : Int) (h : pages ≠ []),
        (pages.length : Int) < start_index →
        extract_pdf_text pages start_index end_index
          = pyStrip (pages.getLast h)) := by
  constructor
  · intro s e
    rfl
  · intro pages s e h hgt
    have h0 : 0 < pages.length := List.length_pos.mpr h
    have hlen : 1 ≤ (pages.length : Int) := by exact_mod_cast h0
    have hnot : ¬ ((pages.length : Int) ≤ 0) := by omega
    have hcs : clamp_start s (pages.length : Int) = (pages.length : Int) := by
      unfold clamp_start
      rw [min_eq_right (le_of_lt hgt), max_eq_right hlen]
    have hce : clamp_end (pages.length : Int) e (pages.length : Int)
        = (pages.length : Int) := by
      unfold clamp_end
      by_cases hm : min (pages.length : Int) e < (pages.length : Int)
      · rw [if_pos hm]
      · rw [if_neg hm]
        exact le_antisymm (min_le_left _ _) (not_lt.mp hm)
    unfold extract_pdf_text
    rw [if_neg hnot]
    simp only [hcs, hce]
    have h1 : ((pages.length : Int) - 1).toNat = pages.length - 1 := by omega
    have h2 : ((pages.length : Int) - (pages.length : Int) + 1).toNat = 1 := by omega
    rw [h1, h2, drop_length_sub_one pages h]
    rfl

/-- C8 witness: the amended clamp behaviour applied at the empty document
and at the concrete one-page document. -/
theorem extract_pdf_text_clamp_spec_witness :
    extract_pdf_text [] 5 9 = "" ∧
    extract_pdf_text ["Single page text"] 999 1200
      = pyStrip (["Single page text"].getLast (by decide)) :=
  ⟨extract_pdf_text_clamp_spec.1 5 9,
   extract_pdf_text_clamp_spec.2 ["Single page text"] 999 1200 (by decide) (by decide)⟩

/-- A directory of files, each a name paired with the entity its JSON
contents deserialise to.  model_dump and model_validate are exact
inverses on these frozen pydantic models, so file contents are modelled
as the entities themselves. -/
def fs_lookup {α : Type} (fs : List (String × α)) (name : String) : Option α :=
  (fs.find? (fun en => en.1 == name)).map (fun en => en.2)

/-- Deleting a file name from a directory. -/
def fs_remove {α : Type} (fs : List (String × α)) (name : String) :
    List (String × α) :=
  fs.filter (fun en => !(en.1 == name))

/-- Writing (creating or replacing) a file. -/
def fs_write {α : Type} (fs : List (String × α)) (name : String) (v : α) :
    List (String × α) :=
  fs_remove fs name ++ [(name, v)]

/-- Path.replace: rename src onto dst, replacing dst. -/
def fs_rename {α : Type} (fs : List (String × α)) (src dst : String) :
    List (String × α) :=
  match fs_lookup fs src with
  | none => fs
  | some v => fs_write (fs_remove fs src) dst v

/-- JobStore.save_job and save_session: dump the entity into
<id>.json.tmp (with_suffix on <id>.json), then atomically rename onto
<id>.json. -/
def store_save {α : Type} (idOf : α → String) (fs : List (String × α)) (e : α) :
    List (String × α) :=
  fs_rename (fs_write fs (idOf e ++ ".json.tmp") e)
    (idOf e ++ ".json.tmp") (idOf e ++ ".json")

/-- JobStore.load_jobs and load_sessions: read every file matching the
glob *.json and key the result map by the id stored in the file.  glob
sorts the file names; under the store invariant that each entity id owns
exactly one file the fold is order-independent, and it is modelled in
directory order. -/
def store_load {α : Type} (idOf : α → String) (fs : List (String × α)) :
    List (String × α) :=
  (fs.filter (fun en => str_endswith en.1 ".json")).foldl
    (fun m en => dict_set m (idOf en.2) en.2) []

theorem fs_lookup_dict_set {α : Type} (m : List (String × α)) (k : String) (v : α) :
    fs_lookup (dict_set m k v) k = some v := by
  induction m with
  | nil =>
    unfold dict_set fs_lookup
    rw [find?_cons_pos (fun en => en.1 == k) (k, v) [] (by simp)]
    rfl
  | cons kv rest ih =>
    unfold dict_set
    by_cases hk : (kv.1 == k) = true
    · rw [if_pos hk]
      unfold fs_lookup
      rw [find?_cons_pos (fun en => en.1 == k) (kv.1, v) rest hk]
      rfl
    · rw [if_neg hk]
      unfold fs_lookup
      rw [find?_cons_neg (fun en => en.1 == k) kv (dict_set rest k v)
        (Bool.eq_false_iff.mpr hk)]
      exact ih

theorem str_endswith_append (s t : String) : str_endswith (s ++ t) t = true := by
  unfold str_endswith
  have hdata : (s ++ t).data = s.data ++ t.data := rfl
  rw [hdata]
  simp [List.isSuffixOf]

theorem out_name_ne_tmp_name (idv : String) :
    (idv ++ ".json") ≠ (idv ++ ".json.tmp") := by
  intro h
  have hlen := congrArg String.length h
  rw [String.length_append, String.length_append] at hlen
  have h5 : (".json" : String).length = 5 := rfl
  have h9 : (".json.tmp" : String).length = 9 := rfl
  omega

theorem tmp_not_json (idv : String) :
    str_endswith (idv ++ ".json.tmp") ".json" = false := by
  have hstep : str_endswith (idv ++ ".json.tmp") ".json"
      = (".json" : String).data.reverse.isPrefixOf
          ((".json.tmp" : String).data.reverse ++ idv.data.reverse) := by
    unfold str_endswith
    have hdata : (idv ++ ".json.tmp").data
        = idv.data ++ (".json.tmp" : String).data := rfl
    rw [hdata]
    simp [List.isSuffixOf, List.reverse_append]
  have h1 : (".json" : String).data.reverse = ['n', 'o', 's', 'j', '.'] := rfl
  have h2 : (".json.tmp" : String).data.reverse
      = ['p', 'm', 't', '.', 'n', 'o', 's', 'j', '.'] := rfl
  rw [hstep, h1, h2]
  simp [List.isPrefixOf]

theorem fs_lookup_append {α : Type} (l1 l2 : List (String × α)) (k : String) :
    fs_lookup (l1 ++ l2) k = (fs_lookup l1 k).or (fs_lookup l2 k) := by
  unfold fs_lookup
  rw [List.find?_append]
  cases h : l1.find? (fun en => en.1 == k) with
  | none => simp
  | some x => simp

theorem fs_lookup_remove_self {α : Type} (fs : List (String × α)) (k : String) :
    fs_lookup (fs_remove fs k) k = none := by
  unfold fs_lookup fs_remove
  have hnone : (fs.filter (fun en => !(en.1 == k))).find? (fun en => en.1 == k)
      = none := by
    rw [List.find?_eq_none]
    intro x hx
    have hx2 := (List.mem_filter.mp hx).2
    simp only [Bool.not_eq_true'] at hx2
    simp [hx2]
  rw [hnone]
  rfl

theorem fs_remove_write {α : Type} (fs : List (String × α)) (n : String) (v : α) :
    fs_remove (fs_write fs n v) n = fs_remove fs n := by
  unfold fs_write fs_remove
  rw [List.filter_append]
  simp [List.filter_filter]

theorem fs_lookup_write_self {α : Type} (fs : List (String × α)) (n : String) (v : α) :
    fs_lookup (fs_write fs n v) n = some v := by
  unfold fs_write
  rw [fs_lookup_append, fs_lookup_remove_self]
  have hone : fs_lookup [(n, v)] n = some v := by
    unfold fs_lookup
    rw [find?_cons_pos (fun en => en.1 == n) (n, v) [] (by simp)]
    rfl
  rw [hone]
  rfl

theorem store_save_eq {α : Type} (idOf : α → String) (fs : List (String × α)) (e : α) :
    store_save idOf fs e
      = fs_remove (fs_remove fs (idOf e ++ ".json.tmp")) (idOf e ++ ".json")
        ++ [(idOf e ++ ".json", e)] := by
  unfold store_save fs_rename
  rw [fs_lookup_write_self]
  show fs_write (fs_remove (fs_write fs (idOf e ++ ".json.tmp") e)
      (idOf e ++ ".json.tmp")) (idOf e ++ ".json") e = _
  rw [fs_remove_write]
  rfl

theorem store_save_no_tmp {α : Type} (idOf : α → String) (fs : List (String × α))
    (e : α) :
    fs_lookup (store_save idOf fs e) (idOf e ++ ".json.tmp") = none := by
  rw [store_save_eq, fs_lookup_append]
  have h1 : fs_lookup
      (fs_remove (fs_remove fs (idOf e ++ ".json.tmp")) (idOf e ++ ".json"))
      (idOf e ++ ".json.tmp") = none := by
    unfold fs_lookup
    have hnone : (fs_remove (fs_remove fs (idOf e ++ ".json.tmp"))
        (idOf e ++ ".json")).find? (fun en => en.1 == idOf e ++ ".json.tmp")
        = none := by
      rw [List.find?_eq_none]
      intro x hx
      have hx1 := (List.mem_filter.mp hx).1
      have hx2 := (List.mem_filter.mp hx1).2
      simp only [Bool.not_eq_true'] at hx2
      simp [hx2]
    rw [hnone]
    rfl
  have h2 : fs_lookup [(idOf e ++ ".json", e)] (idOf e ++ ".json.tmp") = none := by
    unfold fs_lookup
    rw [find?_cons_neg (fun en => en.1 == idOf e ++ ".json.tmp")
      (idOf e ++ ".json", e) []
      (beq_eq_false_iff_ne.mpr (out_name_ne_tmp_name (idOf e)))]
    rfl
  rw [h1, h2]
  rfl

theorem store_save_load {α : Type} (idOf : α → String) (fs : List (String × α))
    (e : α) :
    fs_lookup (store_load idOf (store_save idOf fs e)) (idOf e) = some e := by
  rw [store_save_eq]
  unfold store_load
  rw [List.filter_append]
  have hsingle : List.filter (fun en => str_endswith en.1 ".json")
      [(idOf e ++ ".json", e)] = [(idOf e ++ ".json", e)] := by
    simp [List.filter, str_endswith_append]
  rw [hsingle, List.foldl_append]
  simp only [List.foldl_cons, List.foldl_nil]
  exact fs_lookup_dict_set _ (idOf e) e

/-- C7: saving an entity and then loading all entities yields the saved
entity under its id, both for jobs and for chat sessions; after a
successful save no .json.tmp file for that entity remains, and load only
considers *.json files.  The hypothesis is the store naming invariant
(each .json file is named by the id of the entity it holds), under which
the load fold is independent of the sorted glob order. -/
theorem store_roundtrip_spec :
    (∀ (fs : List (String × Job)) (job : Job),
        (∀ nv ∈ fs, str_endswith nv.1 ".json" = true → nv.1 = nv.2.id ++ ".json") →
        fs_lookup (store_load Job.id (store_save Job.id fs job)) job.id
            = some job ∧
        fs_lookup (store_save Job.id fs job) (job.id ++ ".json.tmp") = none) ∧
    (∀ (fs : List (String × ChatSession)) (cs : ChatSession),
        (∀ nv ∈ fs, str_endswith nv.1 ".json" = true → nv.1 = nv.2.id ++ ".json") →
        fs_lookup (store_load ChatSession.id (store_save ChatSession.id fs cs)) cs.id
            = some cs ∧
        fs_lookup (store_save ChatSession.id fs cs) (cs.id ++ ".json.tmp") = none) := by
  constructor
  · intro fs job _
    exact ⟨store_save_load Job.id fs job, store_save_no_tmp Job.id fs job⟩
  · intro fs cs _
    exact ⟨store_save_load ChatSession.id fs cs, store_save_no_tmp ChatSession.id fs cs⟩

/-- C7 witness: the round trip on an empty store with the concrete example
job and the concrete example session. -/
theorem store_roundtrip_spec_witness :
    (fs_lookup (store_load Job.id (store_save Job.id [] exampleJob)) exampleJob.id
        = some exampleJob ∧
     fs_lookup (store_save Job.id [] exampleJob) (exampleJob.id ++ ".json.tmp")
        = none) ∧
    (fs_lookup (store_load ChatSession.id
          (store_save ChatSession.id [] exampleActiveSession))
        exampleActiveSession.id = some exampleActiveSession ∧
     fs_lookup (store_save ChatSession.id [] exampleActiveSession)
        (exampleActiveSession.id ++ ".json.tmp") = none) :=
  ⟨store_roundtrip_spec.1 [] exampleJob
      (by intro nv h; exact absurd h (List.not_mem_nil nv)),
   store_roundtrip_spec.2 [] exampleActiveSession
      (by intro nv h; exact absurd h (List.not_mem_nil nv))⟩

end PageIndex
